import Mathlib

/-!
Verification of the reaching-definitions abstract domain of
`analysis/src/abstract_domains/reaching_definitions.rs`.

Shallow embedding conventions:

* `mir::Local` and `mir::BasicBlock` are index types; they become `Nat`.
* `mir::Location` is the pair (basic block, statement index).
* `mir::Place` consists of a base local and a (possibly empty) projection
  list; `Place::as_local` returns the base local exactly when the
  projection list is empty.  The elements of a projection are irrelevant
  to this analysis and are abstracted to `Nat`.
* Statement kinds other than `Assign` and terminator kinds other than
  `Call` are irrelevant to the analysis beyond their successor lists, so
  they are collapsed into a single `other` constructor (for statements,
  carrying an abstract tag; for terminators, carrying the syntactic
  successor list that `Terminator::successors()` yields).
* `HashMap<Local, HashSet<Location>>` is modelled extensionally as a
  function `Local → Option (Finset Location)`: `none` means the key is
  absent.  Rust's `==` on `HashMap`/`HashSet` is key/value-set equality,
  which coincides with (funext-propagated) equality of this model.
* Rust functions are pure here: the in-place mutation of `&mut self`
  becomes returning the new state.
* A Rust panic (out-of-bounds `Index`, `unimplemented!`) is a failure
  mode distinct from returning `Err`; it is modelled by an outer
  `Option`, `none` meaning the call aborts without producing any value.
  A returned `Result<A, AnalysisError>` becomes `Except AnalysisError A`.
-/

/-- Embeds `mir::Local`: the index of a local variable. -/
abbrev Local := Nat

/-- Embeds `mir::BasicBlock`: the index of a basic block. -/
abbrev BasicBlock := Nat

/-- Embeds `mir::Location`: a program point, (basic block, statement index). -/
structure Location where
  block : BasicBlock
  statement_index : Nat
deriving DecidableEq

/-- Embeds `mir::Place`: a base local plus a projection list (projection
elements abstracted). -/
structure Place where
  base_local : Local
  projection : List Nat
deriving DecidableEq

/-- Embeds `Place::as_local()`: `Some(local)` exactly when the place is a plain
local, i.e. has no projections. -/
def Place.as_local (p : Place) : Option Local :=
  if p.projection = [] then some p.base_local else none

/-- The right-hand side of an assignment; never inspected by this
analysis, abstracted to a tag. -/
abbrev Rvalue := Nat

/-- Embeds `mir::StatementKind`, as far as `apply_statement_effect` can
distinguish it: `Assign(box (target, rvalue))` versus every other kind
(collapsed, carrying an abstract tag). -/
inductive StatementKind where
  | assign (target : Place) (rv : Rvalue)
  | other (tag : Nat)
deriving DecidableEq

/-- Embeds `mir::TerminatorKind`, as far as `apply_terminator_effect` can
distinguish it: `Call { destination, cleanup, .. }` versus every other
kind, the latter collapsed to the successor list that
`Terminator::successors()` yields for it. -/
inductive TerminatorKind where
  | call (destination : Option (Place × BasicBlock)) (cleanup : Option BasicBlock)
  | other (succs : List BasicBlock)
deriving DecidableEq

/-- Embeds `mir::BasicBlockData`: ordered statements followed by one
terminator.  (In rustc the terminator slot is optional while a body is
under construction and `terminator()` unwraps it; analysed bodies are
complete, so it is total here.) -/
structure BasicBlockData where
  statements : List StatementKind
  terminator : TerminatorKind
deriving DecidableEq

/-- Embeds `mir::Body`: the basic blocks of one function body, indexed by
`BasicBlock`. -/
structure Body where
  basic_blocks : List BasicBlockData
deriving DecidableEq

/-- Embeds `&mir[location.block].statements[location.statement_index]` with both
panicking indexings made explicit: `none` when either index is out of
bounds (the Rust code would abort there). -/
def Body.stmtAt (mir : Body) (loc : Location) : Option StatementKind :=
  match mir.basic_blocks[loc.block]? with
  | none => none
  | some bbd => bbd.statements[loc.statement_index]?

/-- Embeds `mir[location.block].terminator()`: `none` when the block index is
out of bounds (the Rust code would abort there). -/
def Body.terminatorAt (mir : Body) (loc : Location) : Option TerminatorKind :=
  (mir.basic_blocks[loc.block]?).map BasicBlockData.terminator

/-- Modelled from the spec: the `AnalysisError` enum is declared in the
analysis crate outside the provided sources; §7 of the specification
lists its taxonomy.  Its constructors are never produced by the
reaching-definitions code below. -/
inductive AnalysisError where
  | malformedCfg
  | unsupportedConstruct
  | widenContractViolation
deriving DecidableEq

/-- Embeds `ReachingDefsState`: `reaching_assignments: HashMap<mir::Local,
HashSet<mir::Location>>`, modelled extensionally. -/
structure ReachingDefsState where
  reaching_assignments : Local → Option (Finset Location)

/-- Embeds `ReachingDefsState::new_bottom`: an empty map.  (The `mir` and `tcx`
parameters of the source are unused there; the unused `tcx` is dropped.) -/
def ReachingDefsState.new_bottom (_mir : Body) : ReachingDefsState :=
  ⟨fun _ => none⟩

/-- Embeds `ReachingDefsState::new_initial`: defers to `new_bottom`. -/
def ReachingDefsState.new_initial (mir : Body) : ReachingDefsState :=
  ReachingDefsState.new_bottom mir

/-- Embeds `ReachingDefsState::need_to_widen`: unconditionally `false`. -/
def ReachingDefsState.need_to_widen (_counter : Nat) : Bool :=
  false

/-- Embeds `ReachingDefsState::widen`: the body is `unimplemented!()`, which
panics; no state is ever returned, hence constant `none`. -/
def ReachingDefsState.widen (_s _previous : ReachingDefsState) : Option ReachingDefsState :=
  none

/-- Embeds `ReachingDefsState::join(&mut self, other)`: for every key of
`other`, `self.reaching_assignments.entry(local).or_insert(empty)` and
then insert every element of `other`'s set.  Extensionally: keys absent
from `other` keep `self`'s entry; a key present in `other` ends up
present, bound to the union of `self`'s set there (empty if absent) with
`other`'s set. -/
def ReachingDefsState.join (a b : ReachingDefsState) : ReachingDefsState :=
  ⟨fun l =>
    match b.reaching_assignments l with
    | none => a.reaching_assignments l
    | some ob => some ((a.reaching_assignments l).getD ∅ ∪ ob)⟩

/-- The map update performed on an assignment target local by both
transfer functions: `entry(local).or_insert(HashSet::new())`, then
`clear()`, then `insert(*location)` — the key becomes bound to exactly
the singleton of the given location. -/
def ReachingDefsState.strongUpdate (s : ReachingDefsState) (l : Local)
    (loc : Location) : ReachingDefsState :=
  ⟨fun w => if w = l then some {loc} else s.reaching_assignments w⟩

/-- Embeds `ReachingDefsState::apply_statement_effect`: look up the statement
(the two indexings panic when out of bounds, outer `none`); on
`Assign` to a place that `as_local` resolves, strong-update that local
to the singleton of the location; every other case returns `Ok` with the
state unchanged. -/
def ReachingDefsState.apply_statement_effect (s : ReachingDefsState)
    (loc : Location) (mir : Body) : Option (Except AnalysisError ReachingDefsState) :=
  match mir.stmtAt loc with
  | none => none
  | some (StatementKind.assign target _) =>
      match target.as_local with
      | some l => some (Except.ok (s.strongUpdate l loc))
      | none => some (Except.ok s)
  | some (StatementKind.other _) => some (Except.ok s)

/-- The state pushed for a call's destination edge (source lines 92–97):
clone the current state and, when the destination place resolves to a
local, strong-update that local to the singleton of the call's
location. -/
def ReachingDefsState.applyCallDest (s : ReachingDefsState) (loc : Location)
    (p : Place) : ReachingDefsState :=
  match p.as_local with
  | some l => s.strongUpdate l loc
  | none => s

/-- Embeds `ReachingDefsState::apply_terminator_effect`: look up the terminator
(block indexing panics when out of bounds, outer `none`).  For a
`Call`: push the destination edge (if any) with the destination-updated
clone, then the cleanup edge (if any) with an unmodified clone.  For any
other terminator: one unmodified clone per syntactic successor. -/
def ReachingDefsState.apply_terminator_effect (s : ReachingDefsState)
    (loc : Location) (mir : Body) :
    Option (Except AnalysisError (List (BasicBlock × ReachingDefsState))) :=
  match mir.basic_blocks[loc.block]? with
  | none => none
  | some bbd =>
      match bbd.terminator with
      | TerminatorKind.call dest cleanup =>
          some (Except.ok (
            (match dest with
             | some (p, bb) => [(bb, s.applyCallDest loc p)]
             | none => []) ++
            (match cleanup with
             | some bb => [(bb, s)]
             | none => [])))
      | TerminatorKind.other succs =>
          some (Except.ok (succs.map (fun bb => (bb, s))))

/-- States are equal when their maps agree on every key (Rust `==` on
the underlying `HashMap` is exactly this key/value-set equality). -/
theorem ReachingDefsState.eq_of_pointwise {a b : ReachingDefsState}
    (h : ∀ l, a.reaching_assignments l = b.reaching_assignments l) : a = b := by
  cases a
  cases b
  exact congrArg ReachingDefsState.mk (funext h)

/-- A sample state mapping local 0 to the singleton of location (9, 0);
used to instantiate theorems with hypotheses on concrete inputs. -/
def exStateA : ReachingDefsState :=
  ⟨fun l => if l = 0 then some {⟨9, 0⟩} else none⟩

/-- A second sample state, mapping local 0 to the singleton of
location (8, 0). -/
def exStateB : ReachingDefsState :=
  ⟨fun l => if l = 0 then some {⟨8, 0⟩} else none⟩

/-- A one-block body whose single statement assigns to the plain local 0. -/
def exBodyAssign : Body :=
  ⟨[⟨[StatementKind.assign ⟨0, []⟩ 0], TerminatorKind.other []⟩]⟩

/-- A one-block body whose single statement is a non-assignment. -/
def exBodyNoop : Body :=
  ⟨[⟨[StatementKind.other 0], TerminatorKind.other []⟩]⟩

/-- A body whose entry block ends in a two-successor non-call terminator. -/
def exBodyGoto : Body :=
  ⟨[⟨[], TerminatorKind.other [0, 1]⟩, ⟨[], TerminatorKind.other []⟩]⟩

/-- A body whose entry block ends in a call with destination local 0,
success block 1 and cleanup block 2. -/
def exBodyCall : Body :=
  ⟨[⟨[], TerminatorKind.call (some (⟨0, []⟩, 1)) (some 2)⟩,
    ⟨[], TerminatorKind.other []⟩,
    ⟨[], TerminatorKind.other []⟩]⟩

/-- A body with no basic blocks at all. -/
def exBodyEmpty : Body := ⟨[]⟩

/-- A one-block body assigning to a projected (non-local) place. -/
def exBodyProjAssign : Body :=
  ⟨[⟨[StatementKind.assign ⟨0, [1]⟩ 0], TerminatorKind.other []⟩]⟩

/-- A body whose entry block calls into a projected (non-local)
destination place, with success block 1 and no cleanup block. -/
def exBodyProjCall : Body :=
  ⟨[⟨[], TerminatorKind.call (some (⟨0, [1]⟩, 1)) none⟩,
    ⟨[], TerminatorKind.other []⟩]⟩

/-- Claim C1: when the statement at the given location is an assignment
whose target is the plain local `v`, `apply_statement_effect` returns
`Ok`, the resulting state binds `v` to exactly the singleton of the
location (all previously reaching definitions of `v` are killed), and
every other variable's entry is unchanged. -/
theorem apply_statement_assign_strong_update
    (s : ReachingDefsState) (loc : Location) (mir : Body)
    (target : Place) (rv : Rvalue) (v : Local)
    (hstmt : mir.stmtAt loc = some (StatementKind.assign target rv))
    (hv : target.as_local = some v) :
    s.apply_statement_effect loc mir = some (Except.ok (s.strongUpdate v loc)) ∧
    (s.strongUpdate v loc).reaching_assignments v = some {loc} ∧
    ∀ w, w ≠ v →
      (s.strongUpdate v loc).reaching_assignments w = s.reaching_assignments w := by
  refine ⟨?_, ?_, ?_⟩
  · simp [ReachingDefsState.apply_statement_effect, hstmt, hv]
  · simp [ReachingDefsState.strongUpdate]
  · intro w hw
    simp [ReachingDefsState.strongUpdate, hw]

/-- Witness for C1 on a concrete body and state. -/
theorem apply_statement_assign_strong_update_witness :
    exStateA.apply_statement_effect ⟨0, 0⟩ exBodyAssign =
      some (Except.ok (exStateA.strongUpdate 0 ⟨0, 0⟩)) :=
  (apply_statement_assign_strong_update exStateA ⟨0, 0⟩ exBodyAssign
    ⟨0, []⟩ 0 0 rfl rfl).1

/-- Claim C2: for a call terminator, `apply_terminator_effect` returns
`Ok` with exactly the destination edge (if a destination pair is
present, carrying the destination-updated copy) followed by the cleanup
edge (if a cleanup block is present, carrying the entry state
unchanged); and when the destination place is a plain local, the
destination-updated copy binds that local to exactly the singleton of
the call's location, leaving every other variable unchanged. -/
theorem apply_terminator_call_split
    (s : ReachingDefsState) (loc : Location) (mir : Body)
    (dest : Option (Place × BasicBlock)) (cleanup : Option BasicBlock)
    (hterm : mir.terminatorAt loc = some (TerminatorKind.call dest cleanup)) :
    (s.apply_terminator_effect loc mir =
      some (Except.ok (
        (match dest with
         | some (p, bb) => [(bb, s.applyCallDest loc p)]
         | none => []) ++
        (match cleanup with
         | some bb => [(bb, s)]
         | none => [])))) ∧
    ∀ p v, Place.as_local p = some v →
      (s.applyCallDest loc p).reaching_assignments v = some {loc} ∧
      ∀ w, w ≠ v →
        (s.applyCallDest loc p).reaching_assignments w = s.reaching_assignments w := by
  constructor
  · obtain ⟨bbd, hget, hbbd⟩ := Option.map_eq_some'.mp hterm
    simp [ReachingDefsState.apply_terminator_effect, hget, hbbd]
  · intro p v hv
    constructor
    · simp [ReachingDefsState.applyCallDest, hv, ReachingDefsState.strongUpdate]
    · intro w hw
      simp [ReachingDefsState.applyCallDest, hv, ReachingDefsState.strongUpdate, hw]

/-- Witness for C2 on a concrete call with both a destination pair and a
cleanup block. -/
theorem apply_terminator_call_split_witness :
    exStateA.apply_terminator_effect ⟨0, 0⟩ exBodyCall =
      some (Except.ok [(1, exStateA.applyCallDest ⟨0, 0⟩ ⟨0, []⟩), (2, exStateA)]) ∧
    (exStateA.applyCallDest ⟨0, 0⟩ ⟨0, []⟩).reaching_assignments 0 = some {⟨0, 0⟩} :=
  ⟨(apply_terminator_call_split exStateA ⟨0, 0⟩ exBodyCall
      (some (⟨0, []⟩, 1)) (some 2) rfl).1,
   ((apply_terminator_call_split exStateA ⟨0, 0⟩ exBodyCall
      (some (⟨0, []⟩, 1)) (some 2) rfl).2 ⟨0, []⟩ 0 rfl).1⟩

/-- Claim C3: `join` is the pointwise union: a key is absent from the
result exactly when it is absent from both operands; a key present in
the result is bound to the union of the operands' sets there (a missing
key counting as the empty set); and each resulting set contains both
operands' sets for that variable. -/
theorem join_pointwise_union (a b : ReachingDefsState) (l : Local) :
    ((a.join b).reaching_assignments l = none ↔
      (a.reaching_assignments l = none ∧ b.reaching_assignments l = none)) ∧
    (∀ S, (a.join b).reaching_assignments l = some S →
      S = (a.reaching_assignments l).getD ∅ ∪ (b.reaching_assignments l).getD ∅) ∧
    (a.reaching_assignments l).getD ∅ ⊆ ((a.join b).reaching_assignments l).getD ∅ ∧
    (b.reaching_assignments l).getD ∅ ⊆ ((a.join b).reaching_assignments l).getD ∅ := by
  rcases ha : a.reaching_assignments l with _ | sa <;>
    rcases hb : b.reaching_assignments l with _ | sb <;>
      simp [ReachingDefsState.join, ha, hb, Finset.subset_union_left,
        Finset.subset_union_right]

/-- Witness for C3 on two concrete single-key states. -/
theorem join_pointwise_union_witness :
    ({⟨9, 0⟩} ∪ {⟨8, 0⟩} : Finset Location) =
      (exStateA.reaching_assignments 0).getD ∅ ∪
        (exStateB.reaching_assignments 0).getD ∅ :=
  (join_pointwise_union exStateA exStateB 0).2.1
    (({⟨9, 0⟩} ∪ {⟨8, 0⟩} : Finset Location)) (by decide)

/-- Claim C4: `join` is idempotent, commutative and associative under
value equality of the underlying map. -/
theorem join_idem_comm_assoc (x a b c : ReachingDefsState) :
    x.join x = x ∧ a.join b = b.join a ∧ (a.join b).join c = a.join (b.join c) := by
  refine ⟨?_, ?_, ?_⟩
  · apply ReachingDefsState.eq_of_pointwise
    intro l
    rcases hx : x.reaching_assignments l with _ | sx <;>
      simp [ReachingDefsState.join, hx]
  · apply ReachingDefsState.eq_of_pointwise
    intro l
    rcases ha : a.reaching_assignments l with _ | sa <;>
      rcases hb : b.reaching_assignments l with _ | sb <;>
        simp [ReachingDefsState.join, ha, hb, Finset.union_comm]
  · apply ReachingDefsState.eq_of_pointwise
    intro l
    rcases ha : a.reaching_assignments l with _ | sa <;>
      rcases hb : b.reaching_assignments l with _ | sb <;>
        rcases hc : c.reaching_assignments l with _ | sc <;>
          simp [ReachingDefsState.join, ha, hb, hc, Finset.union_assoc]

/-- Claim C5: `need_to_widen` is `false` for every revisit counter, and
`widen` never returns normally (it aborts, modelled by `none`); in
particular no invocation of `widen` is a silent no-op returning the
state unchanged. -/
theorem need_to_widen_false_and_widen_fatal :
    (∀ counter : Nat, ReachingDefsState.need_to_widen counter = false) ∧
    (∀ s previous : ReachingDefsState, ReachingDefsState.widen s previous = none) ∧
    (∀ s previous : ReachingDefsState, ReachingDefsState.widen s previous ≠ some s) := by
  refine ⟨fun _ => rfl, fun _ _ => rfl, fun s previous h => Option.noConfusion h⟩

/-- Witness for C5 at a concrete counter and state. -/
theorem need_to_widen_false_and_widen_fatal_witness :
    ReachingDefsState.need_to_widen 7 = false ∧
    ReachingDefsState.widen exStateA exStateB = none ∧
    ReachingDefsState.widen exStateA exStateB ≠ some exStateA :=
  ⟨need_to_widen_false_and_widen_fatal.1 7,
   need_to_widen_false_and_widen_fatal.2.1 exStateA exStateB,
   need_to_widen_false_and_widen_fatal.2.2 exStateA exStateB⟩

/-- Claim C6: a statement of any non-assignment kind leaves the state
entirely unchanged and returns `Ok`. -/
theorem apply_statement_non_assign_noop
    (s : ReachingDefsState) (loc : Location) (mir : Body) (tag : Nat)
    (hstmt : mir.stmtAt loc = some (StatementKind.other tag)) :
    s.apply_statement_effect loc mir = some (Except.ok s) := by
  simp [ReachingDefsState.apply_statement_effect, hstmt]

/-- Witness for C6 on a concrete body whose only statement is a
non-assignment. -/
theorem apply_statement_non_assign_noop_witness :
    exStateA.apply_statement_effect ⟨0, 0⟩ exBodyNoop = some (Except.ok exStateA) :=
  apply_statement_non_assign_noop exStateA ⟨0, 0⟩ exBodyNoop 0 rfl

/-- Claim C7: for every non-call terminator, `apply_terminator_effect`
returns `Ok` with exactly one pair per syntactic successor, each pair
carrying a copy equal to the input state (the input state itself is a
value and is never mutated in this pure embedding). -/
theorem apply_terminator_other_copies
    (s : ReachingDefsState) (loc : Location) (mir : Body) (succs : List BasicBlock)
    (hterm : mir.terminatorAt loc = some (TerminatorKind.other succs)) :
    s.apply_terminator_effect loc mir =
      some (Except.ok (succs.map (fun bb => (bb, s)))) := by
  obtain ⟨bbd, hget, hbbd⟩ := Option.map_eq_some'.mp hterm
  simp [ReachingDefsState.apply_terminator_effect, hget, hbbd]

/-- Witness for C7 on a concrete two-successor terminator. -/
theorem apply_terminator_other_copies_witness :
    exStateA.apply_terminator_effect ⟨0, 0⟩ exBodyGoto =
      some (Except.ok [(0, exStateA), (1, exStateA)]) :=
  apply_terminator_other_copies exStateA ⟨0, 0⟩ exBodyGoto [0, 1] rfl

/-- Counterexample to claim C8 as stated: invoking
`apply_statement_effect` at location (0, 0) of a body with no blocks
aborts (the out-of-bounds indexing panics; no value is produced), so no
recoverable `MalformedCfg` error value is returned. -/
theorem apply_statement_oob_no_error_value :
    exStateA.apply_statement_effect ⟨0, 0⟩ exBodyEmpty = none ∧
    exStateA.apply_statement_effect ⟨0, 0⟩ exBodyEmpty ≠
      some (Except.error AnalysisError.malformedCfg) :=
  ⟨rfl, fun h => Option.noConfusion h⟩

/-- Claim C8 as amended: at a location whose block or statement index
does not exist in the body, `apply_statement_effect` aborts by an
out-of-bounds indexing panic (modelled by `none`) rather than returning
any recoverable error value. -/
theorem apply_statement_oob_aborts
    (s : ReachingDefsState) (loc : Location) (mir : Body)
    (h : mir.stmtAt loc = none) :
    s.apply_statement_effect loc mir = none := by
  simp [ReachingDefsState.apply_statement_effect, h]

/-- Witness for the amended C8 at a concrete out-of-bounds location. -/
theorem apply_statement_oob_aborts_witness :
    exStateA.apply_statement_effect ⟨1, 5⟩ exBodyEmpty = none :=
  apply_statement_oob_aborts exStateA ⟨1, 5⟩ exBodyEmpty rfl

/-- Claim C9: an assignment whose target place carries a projection (so
it is not a plain local) leaves the state unchanged, and a call whose
destination place carries a projection emits to its success block a
state equal to the input state. -/
theorem non_local_place_no_update :
    (∀ (s : ReachingDefsState) (loc : Location) (mir : Body)
      (target : Place) (rv : Rvalue),
      mir.stmtAt loc = some (StatementKind.assign target rv) →
      target.as_local = none →
      s.apply_statement_effect loc mir = some (Except.ok s)) ∧
    (∀ (s : ReachingDefsState) (loc : Location) (mir : Body) (p : Place)
      (bb : BasicBlock) (cleanup : Option BasicBlock),
      mir.terminatorAt loc = some (TerminatorKind.call (some (p, bb)) cleanup) →
      p.as_local = none →
      s.apply_terminator_effect loc mir =
        some (Except.ok ([(bb, s)] ++
          (match cleanup with
           | some bb2 => [(bb2, s)]
           | none => [])))) := by
  constructor
  · intro s loc mir target rv hstmt hp
    simp [ReachingDefsState.apply_statement_effect, hstmt, hp]
  · intro s loc mir p bb cleanup hterm hp
    obtain ⟨bbd, hget, hbbd⟩ := Option.map_eq_some'.mp hterm
    simp [ReachingDefsState.apply_terminator_effect, hget, hbbd,
      ReachingDefsState.applyCallDest, hp]

/-- Witness for C9 on concrete projected-place bodies. -/
theorem non_local_place_no_update_witness :
    exStateA.apply_statement_effect ⟨0, 0⟩ exBodyProjAssign = some (Except.ok exStateA) ∧
    exStateA.apply_terminator_effect ⟨0, 0⟩ exBodyProjCall =
      some (Except.ok [(1, exStateA)]) :=
  ⟨non_local_place_no_update.1 exStateA ⟨0, 0⟩ exBodyProjAssign ⟨0, [1]⟩ 0 rfl rfl,
   non_local_place_no_update.2 exStateA ⟨0, 0⟩ exBodyProjCall ⟨0, [1]⟩ 1 none rfl rfl⟩

/-- Claim C10: at any location whose statement exists,
`apply_statement_effect` produces a value, at any location whose block
exists, `apply_terminator_effect` produces a value, and neither transfer
function ever produces any `AnalysisError` value (so every produced
value is an `Ok`). -/
theorem transfer_functions_never_error :
    (∀ (s : ReachingDefsState) (loc : Location) (mir : Body) (k : StatementKind),
      mir.stmtAt loc = some k → s.apply_statement_effect loc mir ≠ none) ∧
    (∀ (s : ReachingDefsState) (loc : Location) (mir : Body) (bbd : BasicBlockData),
      mir.basic_blocks[loc.block]? = some bbd →
      s.apply_terminator_effect loc mir ≠ none) ∧
    (∀ (s : ReachingDefsState) (loc : Location) (mir : Body) (e : AnalysisError),
      s.apply_statement_effect loc mir ≠ some (Except.error e) ∧
      s.apply_terminator_effect loc mir ≠ some (Except.error e)) := by
  refine ⟨?_, ?_, ?_⟩
  · intro s loc mir k hstmt
    cases k with
    | assign target rv =>
        cases hp : target.as_local <;>
          simp [ReachingDefsState.apply_statement_effect, hstmt, hp]
    | other tag => simp [ReachingDefsState.apply_statement_effect, hstmt]
  · intro s loc mir bbd hget
    cases hbbd : bbd.terminator with
    | call dest cleanup =>
        simp [ReachingDefsState.apply_terminator_effect, hget, hbbd]
    | other succs =>
        simp [ReachingDefsState.apply_terminator_effect, hget, hbbd]
  · intro s loc mir e
    constructor
    · rcases hstmt : mir.stmtAt loc with _ | k
      · simp [ReachingDefsState.apply_statement_effect, hstmt]
      · cases k with
        | assign target rv =>
            cases hp : target.as_local <;>
              simp [ReachingDefsState.apply_statement_effect, hstmt, hp]
        | other tag => simp [ReachingDefsState.apply_statement_effect, hstmt]
    · rcases hget : mir.basic_blocks[loc.block]? with _ | bbd
      · simp [ReachingDefsState.apply_terminator_effect, hget]
      · cases hbbd : bbd.terminator with
        | call dest cleanup =>
            simp [ReachingDefsState.apply_terminator_effect, hget, hbbd]
        | other succs =>
            simp [ReachingDefsState.apply_terminator_effect, hget, hbbd]

/-- Witness for C10 on a concrete body, state and error variant. -/
theorem transfer_functions_never_error_witness :
    exStateA.apply_statement_effect ⟨0, 0⟩ exBodyAssign ≠ none ∧
    exStateA.apply_terminator_effect ⟨0, 0⟩ exBodyAssign ≠ none ∧
    exStateA.apply_statement_effect ⟨0, 0⟩ exBodyAssign ≠
      some (Except.error AnalysisError.unsupportedConstruct) :=
  ⟨transfer_functions_never_error.1 exStateA ⟨0, 0⟩ exBodyAssign
      (StatementKind.assign ⟨0, []⟩ 0) rfl,
   transfer_functions_never_error.2.1 exStateA ⟨0, 0⟩ exBodyAssign
      ⟨[StatementKind.assign ⟨0, []⟩ 0], TerminatorKind.other []⟩ rfl,
   (transfer_functions_never_error.2.2 exStateA ⟨0, 0⟩ exBodyAssign
      AnalysisError.unsupportedConstruct).1⟩
